import Mathlib

/-!
Verification development for the `kernameters.py` backend
(kernel-module parameter inspection and mutation tool).

The Python source is shallowly embedded: pure parsing code becomes Lean
functions over `List Char` / `String`; filesystem and process effects are
modelled by explicit environment records whose fields give the outcome of
each primitive operation (existence checks, reads, writes, directory
listings), with exceptions modelled as outcome values.  Python `re`
patterns of the source are fixed, so each one is rendered as an explicit
string-matching function; `re.IGNORECASE` is modelled by ASCII
lowercasing, and Python's `\w` by ASCII alphanumerics plus underscore.
-/

namespace Kernameters

/-! ## Python string primitives -/

/-- The ASCII whitespace characters recognised by Python `str.strip()`. -/
def pyIsSpace (c : Char) : Bool :=
  c == ' ' || c == '\t' || c == '\n' || c == '\x0d' || c == '\x0b' || c == '\x0c'

/-- `str.strip()` on a list of characters. -/
def stripL (l : List Char) : List Char :=
  ((l.dropWhile pyIsSpace).reverse.dropWhile pyIsSpace).reverse

/-- Python `str.strip()`. -/
def pyStrip (s : String) : String :=
  String.mk (stripL s.data)

/-- Python `str.rstrip()` (trailing whitespace only), used to state the
spec's description of the read accessor. -/
def pyRstrip (s : String) : String :=
  String.mk ((s.data.reverse.dropWhile pyIsSpace).reverse)

/-- ASCII lowercasing of a character list; models `re.IGNORECASE` for the
ASCII patterns appearing in the source. -/
def lowerL (l : List Char) : List Char :=
  l.map Char.toLower

/-- Python `\w` (ASCII fragment): alphanumeric or underscore. -/
def isWordChar (c : Char) : Bool :=
  c.isAlphanum || c == '_'

/-- `line.split(sep, 1)`: the part before the first `sep`, and the rest
(`none` when `sep` does not occur). -/
def splitFirst (sep : Char) : List Char → List Char × Option (List Char)
  | [] => ([], none)
  | c :: rest =>
    if c = sep then ([], some rest)
    else
      let r := splitFirst sep rest
      (c :: r.1, r.2)

/-- Python `str.split(sep)` for a one-character separator: always yields at
least one (possibly empty) field. -/
def splitOnChar (sep : Char) : List Char → List (List Char)
  | [] => [[]]
  | c :: rest =>
    let r := splitOnChar sep rest
    if c = sep then [] :: r
    else
      match r with
      | h :: t => (c :: h) :: t
      | [] => [[c]]

/-- `str.replace('charp', 'string')`, the only `replace` call in the
source: left-to-right, non-overlapping, case-sensitive. -/
def replaceCharp : List Char → List Char
  | 'c' :: 'h' :: 'a' :: 'r' :: 'p' :: rest => 's' :: 't' :: 'r' :: 'i' :: 'n' :: 'g' :: replaceCharp rest
  | c :: rest => c :: replaceCharp rest
  | [] => []

/-- Substring occurrence test (`pat in s` for Python strings). -/
def containsPat (pat : List Char) : List Char → Bool
  | [] => pat.isPrefixOf []
  | l@(_ :: rest) => pat.isPrefixOf l || containsPat pat rest

/-- Lexicographic (code-point) order on character lists; the order Python
uses to compare strings. -/
def lexLe : List Char → List Char → Bool
  | [], _ => true
  | _ :: _, [] => false
  | a :: as, b :: bs =>
    if a.toNat < b.toNat then true
    else if b.toNat < a.toNat then false
    else lexLe as bs

/-- Code-point order on strings, as used by Python's `sorted`. -/
def pyStrLe (a b : String) : Prop :=
  lexLe a.data b.data = true

instance pyStrLe.instDecidableRel : DecidableRel pyStrLe := fun _ _ =>
  inferInstanceAs (Decidable (_ = true))

/-! ## Parameter Catalog Builder (`get_modinfo_params`) -/

/-- The base-type alternatives of the source's regex patterns, in
alternation order: `(int|bool|short|long|charp|string)`. -/
def hintBases : List (List Char) :=
  ["int".data, "bool".data, "short".data, "long".data, "charp".data, "string".data]

/-- The text matched by `\s*\(array of (<b>)\)$` minus the `\s*` part. -/
def patArray (b : List Char) : List Char :=
  "(array of ".data ++ b ++ [')']

/-- The text matched by `\s*\((<b>)\)$` minus the `\s*` part. -/
def patSimple (b : List Char) : List Char :=
  '(' :: (b ++ [')'])

/-- `re.search(r'\s*\(array of (int|bool|short|long|charp|string)\)$', df,
re.IGNORECASE)`: the base (lower-cased) whose parenthesized array hint ends
the string, if any. -/
def findEndArray (df : List Char) : Option (List Char) :=
  hintBases.findSome? fun b =>
    if (patArray b).isSuffixOf (lowerL df) then some b else none

/-- `re.search(r'\s*\((int|bool|short|long|charp|string)\)$', df,
re.IGNORECASE)`: the base (lower-cased) whose parenthesized hint ends the
string, if any. -/
def findEndSimple (df : List Char) : Option (List Char) :=
  hintBases.findSome? fun b =>
    if (patSimple b).isSuffixOf (lowerL df) then some b else none

/-- One position of `re.search(r'array of (int|...|string)', l,
re.IGNORECASE)`: if the pattern matches at the head of `l`, the matched
group 1 in its original case. -/
def arrayAt (l : List Char) : Option (List Char) :=
  if "array of ".data.isPrefixOf (lowerL l) then
    hintBases.findSome? fun b =>
      if b.isPrefixOf (lowerL (l.drop 9)) then some ((l.drop 9).take b.length) else none
  else none

/-- Leftmost match of `re.search(r'array of (int|...|string)', ., IGNORECASE)`,
returning group 1 in its original case. -/
def searchArrayKw : List Char → Option (List Char)
  | [] => none
  | l@(_ :: rest) =>
    match arrayAt l with
    | some g => some g
    | none => searchArrayKw rest

/-- One position of `re.search(r'\b(int|...|string)\b', ., IGNORECASE)`:
`prevW` tells whether the character before `l` is a word character (the
leading `\b`); the trailing `\b` is checked after each alternative. -/
def simpleAt (prevW : Bool) (l : List Char) : Option (List Char) :=
  if prevW then none
  else
    hintBases.findSome? fun b =>
      if b.isPrefixOf (lowerL l) then
        match l.drop b.length with
        | [] => some (l.take b.length)
        | c :: _ => if isWordChar c then none else some (l.take b.length)
      else none

/-- Leftmost match of `re.search(r'\b(int|...|string)\b', ., IGNORECASE)`,
returning group 1 in its original case. -/
def searchSimpleKw : Bool → List Char → Option (List Char)
  | _, [] => none
  | prevW, l@(c :: rest) =>
    match simpleAt prevW l with
    | some g => some g
    | none => searchSimpleKw (isWordChar c) rest

/-- One parameter's parsed metadata, `{'description': ..., 'type': ...,
'raw_modinfo_line': ...}`. -/
structure ParamInfo where
  description : String
  type : String
  raw_modinfo_line : String
  deriving DecidableEq, Repr

/-- The fallback type inference of `get_modinfo_params` (applied when no
trailing parenthesized hint matched): `m_array` search, then `m_simple`
search with the `"(string)"` guard, else the default `"string"`. -/
def fallbackType (description_full : String) : String :=
  match searchArrayKw description_full.data with
  | some g => "array of " ++ String.mk (replaceCharp g)
  | none =>
    match searchSimpleKw false description_full.data with
    | some g =>
      let potential := String.mk (replaceCharp g)
      if potential ≠ "string" || containsPat "(string)".data description_full.data then potential
      else "string"
    | none => "string"

/-- The loop body of `get_modinfo_params` for a single `modinfo` output
line: `none` models `continue` (skipped line), otherwise the parameter
name with its `ParamInfo` record. -/
def parseModinfoLine (line : String) : Option (String × ParamInfo) :=
  if pyStrip line = "" then none
  else
    let ps := splitFirst ':' line.data
    let param_name := pyStrip (String.mk ps.1)
    if param_name = "" then none
    else
      let description_full : String :=
        match ps.2 with
        | some rest => pyStrip (String.mk rest)
        | none => ""
      let df := description_full.data
      match findEndArray df with
      | some b =>
        some (param_name,
          { description := pyStrip (String.mk (df.take (df.length - (b.length + 11)))),
            type := "array of " ++ String.mk (replaceCharp ((df.drop (df.length - (b.length + 1))).take b.length)),
            raw_modinfo_line := pyStrip line })
      | none =>
        match findEndSimple df with
        | some b =>
          some (param_name,
            { description := pyStrip (String.mk (df.take (df.length - (b.length + 2)))),
              type := String.mk (replaceCharp ((df.drop (df.length - (b.length + 1))).take b.length)),
              raw_modinfo_line := pyStrip line })
        | none =>
          some (param_name,
            { description := description_full,
              type := fallbackType description_full,
              raw_modinfo_line := pyStrip line })

/-- Insertion into a Python dict modelled as an insertion-ordered
association list: a present key is updated in place, a new key appended. -/
def dictInsert {α : Type} : List (String × α) → String → α → List (String × α)
  | [], k, v => [(k, v)]
  | (k', v') :: rest, k, v =>
    if k' = k then (k, v) :: rest else (k', v') :: dictInsert rest k v

/-- Association-list lookup (Python dict read / `in` test). -/
def assocLookup {α : Type} : List (String × α) → String → Option α
  | [], _ => none
  | (k, v) :: rest, key => if k = key then some v else assocLookup rest key

/-- The whole parsing loop of `get_modinfo_params` over the raw `modinfo`
output text, building the `params_info` dict. -/
def parseModinfoOutput (output : String) : List (String × ParamInfo) :=
  (splitOnChar '\n' (pyStrip output).data).foldl
    (fun acc lineChars =>
      match parseModinfoLine (String.mk lineChars) with
      | some kv => dictInsert acc kv.1 kv.2
      | none => acc) []

/-! ## System environment model

Filesystem and process effects are modelled by a record of outcome
functions; a Python exception raised by a primitive becomes an explicit
outcome value, so the embedded functions return exactly what the source's
`try`/`except` structure returns on every path. -/

/-- Outcome of `open(path, 'w')` followed by `f.write(value)`. -/
inductive WriteOutcome
  | ok
  | ioError (errnum : Nat)
  | otherError (msg : String)
  deriving DecidableEq, Repr

/-- Outcome of `open(path, 'r')` followed by `f.read()`. -/
inductive ReadOutcome
  | ok (content : String)
  | ioError
  | otherError
  deriving DecidableEq, Repr

/-- `errno.EACCES` on Linux. -/
def EACCES : Nat := 13
/-- `errno.EPERM` on Linux. -/
def EPERM : Nat := 1
/-- `errno.EINVAL` on Linux. -/
def EINVAL : Nat := 22
/-- `errno.ENOENT` on Linux. -/
def ENOENT : Nat := 2

/-- The ambient system: sysfs paths, write permissions, read/write
outcomes, `os.strerror`, and the two external command shapes issued by the
backend (`lsmod` listing and `modinfo -F parameters <module>`; `none`
models `run_command` returning `None`). -/
structure Sys where
  pathExists : String → Bool
  writable : String → Bool
  writeOutcome : String → String → WriteOutcome
  readOutcome : String → ReadOutcome
  strerror : Nat → String
  lsmodOutput : Option String
  modinfoOutput : String → Option String

/-- `f"/sys/module/{module_name}/parameters/{param_name}"`. -/
def sysfsPath (module_name param_name : String) : String :=
  "/sys/module/" ++ module_name ++ "/parameters/" ++ param_name

/-- `get_modinfo_params(module)` against the environment: command failure,
empty output, or no parsable parameter lines all yield `none`. -/
def get_modinfo_params (env : Sys) (module : String) : Option (List (String × ParamInfo)) :=
  if module = "" then none
  else
    match env.modinfoOutput module with
    | none => none
    | some output =>
      if pyStrip output = "" then none
      else
        let params_info := parseModinfoOutput output
        if params_info = [] then none else some params_info

/-! ## Sysfs Value Accessor -/

/-- `get_sysfs_param_value(module_name, param_name)`: the `str.strip()`-ed
file content on success, a fixed sentinel string on `IOError`, and a second
sentinel on any other exception. -/
def get_sysfs_param_value (env : Sys) (module_name param_name : String) : String :=
  match env.readOutcome (sysfsPath module_name param_name) with
  | .ok content => pyStrip content
  | .ioError => "N/A (sysfs access error)"
  | .otherError => "N/A (unexpected read error)"

/-- `set_sysfs_param_value(module_name, param_name, value)`, additionally
returning the trace of attempted `open('w')`+`write` calls `(path, value)`
so that "the write is attempted / never retried" is expressible. -/
def set_sysfs_param_value_traced (env : Sys) (module_name param_name value : String) :
    (Bool × String) × List (String × String) :=
  let sysfs_path := sysfsPath module_name param_name
  if !env.pathExists sysfs_path then
    ((false, "Error: Parameter file not found at '" ++ sysfs_path ++ "'."), [])
  else if !env.writable sysfs_path then
    ((false, "Error: Permission denied (parameter file not writable)."), [])
  else
    match env.writeOutcome sysfs_path value with
    | .ok =>
      ((true, "Successfully wrote '" ++ value ++ "' to " ++ param_name ++ "."),
       [(sysfs_path, value)])
    | .ioError e =>
      if e = EACCES ∨ e = EPERM then
        ((false, "Error: Permission denied by kernel during write operation."),
         [(sysfs_path, value)])
      else if e = EINVAL then
        ((false, "Error: Kernel rejected value '" ++ value ++ "' as invalid for " ++ param_name ++ "."),
         [(sysfs_path, value)])
      else if e = ENOENT then
        ((false, "Error: Parameter file disappeared before write could occur."),
         [(sysfs_path, value)])
      else
        ((false, "Error writing to sysfs parameter " ++ param_name ++ ": " ++ env.strerror e ++
            " (errno " ++ toString e ++ ")."),
         [(sysfs_path, value)])
    | .otherError m =>
      ((false, "An unexpected error occurred while writing to " ++ param_name ++ ": " ++ m),
       [(sysfs_path, value)])

/-- `set_sysfs_param_value`: the `(success, message)` pair alone. -/
def set_sysfs_param_value (env : Sys) (module_name param_name value : String) : Bool × String :=
  (set_sysfs_param_value_traced env module_name param_name value).1

/-! ## Profile Applier -/

/-- A leaf JSON value found at a parameter position of a profile's
`parameters` mapping; `str(value)` is applied before writing. -/
inductive Leaf
  | s (v : String)
  | i (n : Int)
  | b (v : Bool)
  deriving DecidableEq, Repr

/-- Python `str()` on a `Leaf`. -/
def leafStr : Leaf → String
  | .s v => v
  | .i n => toString n
  | .b true => "True"
  | .b false => "False"

/-- A module's entry inside `profile_parameters`: a parameter dict, or any
non-dict JSON value (the malformed case the source checks for). -/
inductive ModEntry
  | dict (ps : List (String × Leaf))
  | nonDict
  deriving DecidableEq, Repr

/-- The top-level `profile_parameters` argument: a module dict, or any
non-dict value. -/
inductive ProfileParams
  | dict (ms : List (String × ModEntry))
  | nonDict
  deriving DecidableEq, Repr

/-- One element of the `failures` list of `apply_profile_parameters`. -/
structure FailureEntry where
  module : String
  parameter : String
  value : String
  reason : String
  deriving DecidableEq, Repr

/-- The summary dict returned by `apply_profile_parameters`. -/
structure ApplyResult where
  success_count : Nat
  failure_count : Nat
  failures : List FailureEntry
  deriving DecidableEq, Repr

/-- The synthetic failure entry for a module whose parameter set is not a
dict. -/
def moduleFormatFailure (module_name : String) : FailureEntry :=
  ⟨module_name, "N/A", "N/A",
   "Invalid parameters format for module '" ++ module_name ++ "' (must be a dictionary)."⟩

/-- The body of the inner parameter loop of `apply_profile_parameters`:
attempt one write, bump the success count or append a failure entry. -/
def applyParamStep (env : Sys) (module_name : String)
    (a : (Nat × List FailureEntry) × List (String × String)) (pv : String × Leaf) :
    (Nat × List FailureEntry) × List (String × String) :=
  let r := set_sysfs_param_value_traced env module_name pv.1 (leafStr pv.2)
  if r.1.1 then ((a.1.1 + 1, a.1.2), a.2 ++ r.2)
  else ((a.1.1, a.1.2 ++ [⟨module_name, pv.1, leafStr pv.2, r.1.2⟩]), a.2 ++ r.2)

/-- The inner parameter loop of `apply_profile_parameters` for one module,
threading `(applied_successfully_count, failed_to_apply_details)` and the
write trace. -/
def applyModuleParams (env : Sys) (module_name : String)
    (ps : List (String × Leaf)) (acc : (Nat × List FailureEntry) × List (String × String)) :
    (Nat × List FailureEntry) × List (String × String) :=
  ps.foldl (applyParamStep env module_name) acc

/-- The body of the outer module loop of `apply_profile_parameters`:
append the synthetic failure for a non-dict module, else run the inner
parameter loop. -/
def applyStep (env : Sys) (acc : (Nat × List FailureEntry) × List (String × String))
    (me : String × ModEntry) : (Nat × List FailureEntry) × List (String × String) :=
  match me.2 with
  | .nonDict => ((acc.1.1, acc.1.2 ++ [moduleFormatFailure me.1]), acc.2)
  | .dict ps => applyModuleParams env me.1 ps acc

/-- `apply_profile_parameters(profile_parameters)` with the write trace. -/
def apply_profile_parameters_traced (env : Sys) : ProfileParams →
    ApplyResult × List (String × String)
  | .nonDict =>
    (⟨0, 1, [⟨"N/A", "N/A", "N/A", "Invalid profile_parameters format (must be a dictionary)."⟩]⟩,
     [])
  | .dict ms =>
    let res := ms.foldl (applyStep env) ((0, []), [])
    (⟨res.1.1, res.1.2.length, res.1.2⟩, res.2)

/-- `apply_profile_parameters`: the summary dict alone. -/
def apply_profile_parameters (env : Sys) (pp : ProfileParams) : ApplyResult :=
  (apply_profile_parameters_traced env pp).1

/-! ## Module Data Aggregator (`collect_all_module_data`) -/

/-- The per-parameter state `{'current': ..., 'available': ...}`. -/
structure ParamState where
  current : String
  available : ParamInfo
  deriving DecidableEq, Repr

/-- A value of the aggregator's result dict: the string carried by the
`"error"`/`"info"` sentinel keys, `None` for a module whose metadata
retrieval failed, or the per-parameter state dict. -/
inductive EntryVal
  | strVal (msg : String)
  | absent
  | params (ps : List (String × ParamState))
  deriving DecidableEq, Repr

/-- `[m for m in modules_output.strip().split('\n') if m]`. -/
def moduleList (output : String) : List String :=
  ((splitOnChar '\n' (pyStrip output).data).map String.mk).filter (fun m => m ≠ "")

/-- `sorted(list(set(module_list)))` under Python's code-point string
order: the duplicate-free list sorted ascending. -/
def sortedModules (l : List String) : List String :=
  List.insertionSort pyStrLe l.dedup

/-- `collect_all_module_data()` against the environment. -/
def collect_all_module_data (env : Sys) : List (String × EntryVal) :=
  match env.lsmodOutput with
  | none => [("error", .strVal "Failed to list kernel modules (lsmod command failed).")]
  | some modules_output =>
    let module_list := moduleList modules_output
    if module_list = [] then [("info", .strVal "No kernel modules found.")]
    else
      (sortedModules module_list).map fun module_name =>
        match get_modinfo_params env module_name with
        | none => (module_name, .absent)
        | some pmap =>
          (module_name,
           .params (pmap.map fun pi =>
             (pi.1, ⟨get_sysfs_param_value env module_name pi.1, pi.2⟩)))

/-! ## Profile Store -/

/-- `_sanitize_filename(name)`: spaces to underscores, drop every
character that is not word-class or hyphen, truncate to 200 characters. -/
def _sanitize_filename (name : String) : String :=
  if name = "" then ""
  else
    String.mk
      (((name.data.map fun c => if c = ' ' then '_' else c).filter
          fun c => isWordChar c || c = '-').take 200)

/-- The parsed content of a stored profile JSON file with all required
fields present. -/
structure ProfileData where
  profile_name : String
  sanitized_name : String
  description : String
  date_created : String
  parameters : List (String × List (String × String))
  deriving DecidableEq, Repr

/-- What a file in the profile directory deserializes to: a complete
record, a JSON value missing required fields, or invalid JSON. -/
inductive StoredFile
  | record (d : ProfileData)
  | missingFields
  | notJson
  deriving DecidableEq, Repr

/-- The profile-store environment: stored files keyed by path, outcomes of
`os.makedirs` / file writes / file reads, directory predicates used by
`list_profiles`, `os.strerror`, and `datetime.now().isoformat()`. -/
structure ProfFS where
  files : List (String × StoredFile)
  makedirsErr : Option Nat
  writeErr : String → Option Nat
  readErr : String → Option Nat
  dirExists : String → Bool
  listing : String → Except Nat (List String)
  isFile : String → Bool
  strerror : Nat → String
  now : String

/-- `os.path.join(base, fn)` for the relative filenames the store builds. -/
def pyJoin (base fn : String) : String :=
  if base = "" then fn
  else if base.data.getLast? = some '/' then base ++ fn
  else base ++ "/" ++ fn

/-- `save_profile(profile_name, description, modules_parameters_to_save,
base_dir)`: returns the updated store next to the source's
`(bool, message)` pair. -/
def save_profile (fs : ProfFS) (profile_name description : String)
    (modules_parameters_to_save : List (String × List (String × String)))
    (base_dir : String) : ProfFS × (Bool × String) :=
  let sanitized_name := _sanitize_filename profile_name
  if sanitized_name = "" then
    (fs, (false, "Error: Profile name is invalid or results in an empty filename after sanitization."))
  else
    match fs.makedirsErr with
    | some e =>
      (fs, (false, "Error creating profile directory '" ++ base_dir ++ "': " ++ fs.strerror e))
    | none =>
      let file_path := pyJoin base_dir (sanitized_name ++ ".json")
      let profile_data : ProfileData :=
        ⟨profile_name, sanitized_name, description, fs.now, modules_parameters_to_save⟩
      match fs.writeErr file_path with
      | some e =>
        (fs, (false, "Error writing profile to file '" ++ file_path ++ "': " ++ fs.strerror e))
      | none =>
        ({ fs with files := dictInsert fs.files file_path (.record profile_data) },
         (true, "Profile '" ++ profile_name ++ "' saved successfully as '" ++ sanitized_name ++ ".json'."))

/-- `load_profile(profile_name_sanitized, base_dir)`. -/
def load_profile (fs : ProfFS) (profile_name_sanitized base_dir : String) :
    Option ProfileData × String :=
  let file_path := pyJoin base_dir (profile_name_sanitized ++ ".json")
  match assocLookup fs.files file_path with
  | none =>
    (none, "Error: Profile file '" ++ profile_name_sanitized ++ ".json' not found in '" ++
       base_dir ++ "'.")
  | some sf =>
    match fs.readErr file_path with
    | some e =>
      (none, "Error reading profile file '" ++ profile_name_sanitized ++ ".json': " ++ fs.strerror e)
    | none =>
      match sf with
      | .notJson =>
        (none, "Error: Invalid JSON format in profile file '" ++ profile_name_sanitized ++ ".json'.")
      | .missingFields =>
        (none, "Error: Profile '" ++ profile_name_sanitized ++ ".json' is missing one or more required fields.")
      | .record d => (some d, "Profile '" ++ d.profile_name ++ "' loaded successfully.")

/-- `os.path.splitext(f)[0]` for a filename without path separators: split
at the last dot, unless every character before it is a dot. -/
def splitextStem (f : String) : String :=
  match (f.data.foldl
      (fun (st : Nat × Option Nat) ch =>
        (st.1 + 1, if ch = '.' then some st.1 else st.2)) (0, none)).2 with
  | none => f
  | some i =>
    if (f.data.take i).any (fun c => c ≠ '.') then String.mk (f.data.take i) else f

/-- `list_profiles(base_dir)`. -/
def list_profiles (fs : ProfFS) (base_dir : String) : Option (List String) × String :=
  if !fs.dirExists base_dir then
    (none, "Profile directory '" ++ base_dir ++ "' not found or is not a directory.")
  else
    match fs.listing base_dir with
    | .error e =>
      (none, "Error reading profile directory '" ++ base_dir ++ "': " ++ fs.strerror e)
    | .ok entries =>
      let profile_files := entries.filter fun f =>
        ".json".data.isSuffixOf f.data && fs.isFile (pyJoin base_dir f)
      if profile_files = [] then
        (some [], "No profiles found in '" ++ base_dir ++ "'.")
      else
        let profile_names := List.insertionSort pyStrLe (profile_files.map splitextStem)
        (some profile_names, "Found " ++ toString profile_names.length ++ " profile(s).")

/-! ## Claim-level companion definitions

These restate, in the spec's vocabulary, what the claims predict; the
theorems below compare them with the translated source functions. -/

/-- There is no word character immediately before the end of `u` (the
left-hand side of a `\b` boundary for a match starting after `u`). -/
def nonWordEnd (u : List Char) : Bool :=
  match u.getLast? with
  | none => true
  | some c => !isWordChar c

/-- The first character of `v` is not a word character (the right-hand
side of a `\b` boundary for a match ending before `v`). -/
def nonWordStart (v : List Char) : Bool :=
  match v with
  | [] => true
  | c :: _ => !isWordChar c

/-- The spec's "`array of <base>` occurs anywhere in the description",
matched case-insensitively. -/
def arrayPhraseOccurs (df : List Char) : Prop :=
  ∃ u b v, b ∈ hintBases ∧ lowerL df = u ++ ("array of ".data ++ (b ++ v))

/-- The spec's "a standalone base-type keyword occurs anywhere":
a case-insensitive base occurrence delimited by word boundaries. -/
def standaloneKwOccurs (df : List Char) : Prop :=
  ∃ u g v, df = u ++ (g ++ v) ∧ lowerL g ∈ hintBases ∧
    nonWordEnd u = true ∧ nonWordStart v = true

/-- The claim's enumeration of the `(module, parameter, str(value))`
triples a profile application attempts to write, in order. -/
def profileWriteTriples : List (String × ModEntry) → List (String × String × String)
  | [] => []
  | (_, .nonDict) :: rest => profileWriteTriples rest
  | (m, .dict ps) :: rest =>
    (ps.map fun pv => (m, pv.1, leafStr pv.2)) ++ profileWriteTriples rest

/-- The claim's description of the `failures` list: one synthetic entry
per malformed module, and one entry per failed write carrying the
accessor's message. -/
def expectedApplyFailures (env : Sys) : List (String × ModEntry) → List FailureEntry
  | [] => []
  | (m, .nonDict) :: rest => moduleFormatFailure m :: expectedApplyFailures env rest
  | (m, .dict ps) :: rest =>
    ((ps.filter fun pv => !(set_sysfs_param_value env m pv.1 (leafStr pv.2)).1).map
        fun pv => ⟨m, pv.1, leafStr pv.2, (set_sysfs_param_value env m pv.1 (leafStr pv.2)).2⟩)
      ++ expectedApplyFailures env rest

/-! ## Concrete environments used to instantiate the theorems -/

/-- A system in which nothing exists and every command fails. -/
def sysAbsent : Sys where
  pathExists := fun _ => false
  writable := fun _ => false
  writeOutcome := fun _ _ => .ioError 5
  readOutcome := fun _ => .ioError
  strerror := fun _ => "Input/output error"
  lsmodOutput := none
  modinfoOutput := fun _ => none

/-- The system of the C4 example: exactly the `usbcore.autosuspend`
parameter file exists and is writable, writes to it succeed. -/
def sysUsb : Sys where
  pathExists := fun p => p = "/sys/module/usbcore/parameters/autosuspend"
  writable := fun _ => true
  writeOutcome := fun _ _ => .ok
  readOutcome := fun _ => .ioError
  strerror := fun _ => ""
  lsmodOutput := none
  modinfoOutput := fun _ => none

/-- A system whose parameter files read back as `"  x\n"` (leading and
trailing whitespace around the payload). -/
def sysPadded : Sys where
  pathExists := fun _ => true
  writable := fun _ => true
  writeOutcome := fun _ _ => .ok
  readOutcome := fun _ => .ok "  x\n"
  strerror := fun _ => ""
  lsmodOutput := none
  modinfoOutput := fun _ => none

/-- An empty profile store in which every filesystem operation succeeds. -/
def fsEmpty : ProfFS where
  files := []
  makedirsErr := none
  writeErr := fun _ => none
  readErr := fun _ => none
  dirExists := fun _ => true
  listing := fun _ => .ok []
  isFile := fun _ => true
  strerror := fun _ => ""
  now := "2024-01-01T00:00:00"

/-- A profile store whose profile directory does not exist. -/
def fsNoDir : ProfFS where
  files := []
  makedirsErr := none
  writeErr := fun _ => none
  readErr := fun _ => none
  dirExists := fun _ => false
  listing := fun _ => .ok []
  isFile := fun _ => true
  strerror := fun _ => ""
  now := "2024-01-01T00:00:00"

/-- A profile store whose directory holds two profile files, a
subdirectory entry and an unrelated file. -/
def fsTwo : ProfFS where
  files := []
  makedirsErr := none
  writeErr := fun _ => none
  readErr := fun _ => none
  dirExists := fun _ => true
  listing := fun _ => .ok ["b.json", "a.json", "sub", "c.txt"]
  isFile := fun f => f ≠ "sub"
  strerror := fun _ => ""
  now := "2024-01-01T00:00:00"

/-! ## Order facts for Python's string sort -/

theorem lexLe_cons {a b : Char} {as bs : List Char} :
    lexLe (a :: as) (b :: bs) = true ↔
      a.toNat < b.toNat ∨ (a.toNat = b.toNat ∧ lexLe as bs = true) := by
  by_cases h1 : a.toNat < b.toNat
  · simp [lexLe, h1]
  · by_cases h2 : b.toNat < a.toNat
    · simp [lexLe, h1, h2]
      omega
    · have he : a.toNat = b.toNat := by omega
      simp [lexLe, h1, h2, he]

theorem lexLe_total : ∀ a b : List Char, lexLe a b = true ∨ lexLe b a = true
  | [], _ => Or.inl rfl
  | _ :: _, [] => Or.inr rfl
  | a :: as, b :: bs => by
    rcases Nat.lt_trichotomy a.toNat b.toNat with h | h | h
    · exact Or.inl (lexLe_cons.mpr (Or.inl h))
    · rcases lexLe_total as bs with h' | h'
      · exact Or.inl (lexLe_cons.mpr (Or.inr ⟨h, h'⟩))
      · exact Or.inr (lexLe_cons.mpr (Or.inr ⟨h.symm, h'⟩))
    · exact Or.inr (lexLe_cons.mpr (Or.inl h))

theorem lexLe_trans : ∀ a b c : List Char,
    lexLe a b = true → lexLe b c = true → lexLe a c = true
  | [], _, _, _, _ => rfl
  | _ :: _, [], _, h, _ => by simp [lexLe] at h
  | _ :: _, _ :: _, [], _, h => by simp [lexLe] at h
  | a :: as, b :: bs, c :: cs, h1, h2 => by
    rcases lexLe_cons.mp h1 with h1' | ⟨he1, h1'⟩ <;>
      rcases lexLe_cons.mp h2 with h2' | ⟨he2, h2'⟩
    · exact lexLe_cons.mpr (Or.inl (h1'.trans h2'))
    · exact lexLe_cons.mpr (Or.inl (he2 ▸ h1'))
    · exact lexLe_cons.mpr (Or.inl (he1 ▸ h2'))
    · exact lexLe_cons.mpr (Or.inr ⟨he1.trans he2, lexLe_trans as bs cs h1' h2'⟩)

instance pyStrLe.instIsTotal : IsTotal String pyStrLe :=
  ⟨fun a b => lexLe_total a.data b.data⟩

instance pyStrLe.instIsTrans : IsTrans String pyStrLe :=
  ⟨fun a b c => lexLe_trans a.data b.data c.data⟩

/-! ## Helper lemmas -/

theorem assocLookup_dictInsert {α : Type} (l : List (String × α)) (k : String) (v : α) :
    assocLookup (dictInsert l k v) k = some v := by
  induction l with
  | nil => simp [dictInsert, assocLookup]
  | cons kv rest ih =>
    by_cases h : kv.1 = k
    · simp [dictInsert, h, assocLookup]
    · simp [dictInsert, h, assocLookup, ih]

theorem sanitize_keep_chars (x : String) :
    ∀ c ∈ (_sanitize_filename x).data, (isWordChar c || c = '-') = true := by
  intro c hc
  by_cases hx : x = ""
  · rw [hx] at hc
    simp [_sanitize_filename] at hc
  · have hc2 : c ∈ ((x.data.map fun c => if c = ' ' then '_' else c).filter
        fun c => isWordChar c || c = '-').take 200 := by
      rw [_sanitize_filename, if_neg hx] at hc
      exact hc
    have hc3 : c ∈ (x.data.map fun c => if c = ' ' then '_' else c).filter
        (fun c => isWordChar c || c = '-') := List.take_subset _ _ hc2
    exact (List.mem_filter.mp hc3).2

theorem sanitize_filename_idem (x : String) :
    _sanitize_filename (_sanitize_filename x) = _sanitize_filename x := by
  by_cases hx : x = ""
  · rw [hx]
    decide
  · by_cases ho : _sanitize_filename x = ""
    · rw [ho]
      decide
    · have hkeep := sanitize_keep_chars x
      have hnospace : ∀ c ∈ (_sanitize_filename x).data, ¬c = ' ' := by
        intro c hc he
        have h := hkeep c hc
        rw [he] at h
        exact absurd h (by decide)
      have hlen : (_sanitize_filename x).data.length ≤ 200 := by
        rw [_sanitize_filename, if_neg hx]
        simp
      have hmapfn : ∀ c ∈ (_sanitize_filename x).data,
          (fun c => if c = ' ' then '_' else c) c = id c :=
        fun c hc => if_neg (hnospace c hc)
      have hmap : (_sanitize_filename x).data.map (fun c => if c = ' ' then '_' else c) =
          (_sanitize_filename x).data := by
        rw [List.map_congr_left hmapfn, List.map_id]
      have hfil : (_sanitize_filename x).data.filter (fun c => isWordChar c || c = '-') =
          (_sanitize_filename x).data := List.filter_eq_self.mpr hkeep
      conv_lhs => rw [_sanitize_filename, if_neg ho, hmap, hfil,
        List.take_of_length_le hlen]

/-! ## Claim C10 -/

/-- C10: when `apply_profile_parameters` receives a top-level argument
that is not a mapping, it performs no writes and returns a summary with
`success_count` 0, `failure_count` 1 and exactly one synthetic failure
entry whose module, parameter and value are the placeholder `"N/A"` and
whose reason reports the invalid format. -/
theorem apply_non_mapping_argument (env : Sys) :
    apply_profile_parameters_traced env .nonDict =
      (⟨0, 1, [⟨"N/A", "N/A", "N/A",
          "Invalid profile_parameters format (must be a dictionary)."⟩]⟩,
       []) := rfl

/-! ## Claim C3 -/

/-- C3: `set_sysfs_param_value` always returns a `(success, message)` pair
(exceptions of the write are modelled as outcome values and every outcome
maps to a returned pair); a missing path yields a not-found failure with no
write attempted; a failed pre-write permission check yields the
process-level permission failure; an `EACCES`/`EPERM` error raised by the
write yields the kernel-level permission failure; `EINVAL` yields the
invalid-value failure; `ENOENT` during the write yields the disappeared
failure; any other I/O fault yields the generic failure with detail; at
most one write is ever attempted (never retried). -/
theorem sysfs_write_contract (env : Sys) (m p v : String) :
    (env.pathExists (sysfsPath m p) = false →
      set_sysfs_param_value_traced env m p v =
        ((false, "Error: Parameter file not found at '" ++ sysfsPath m p ++ "'."), [])) ∧
    (env.pathExists (sysfsPath m p) = true → env.writable (sysfsPath m p) = false →
      set_sysfs_param_value_traced env m p v =
        ((false, "Error: Permission denied (parameter file not writable)."), [])) ∧
    (env.pathExists (sysfsPath m p) = true → env.writable (sysfsPath m p) = true →
      env.writeOutcome (sysfsPath m p) v = .ok →
      set_sysfs_param_value_traced env m p v =
        ((true, "Successfully wrote '" ++ v ++ "' to " ++ p ++ "."), [(sysfsPath m p, v)])) ∧
    (∀ e, env.pathExists (sysfsPath m p) = true → env.writable (sysfsPath m p) = true →
      env.writeOutcome (sysfsPath m p) v = .ioError e →
      ((e = EACCES ∨ e = EPERM) →
        set_sysfs_param_value_traced env m p v =
          ((false, "Error: Permission denied by kernel during write operation."),
           [(sysfsPath m p, v)])) ∧
      (e = EINVAL →
        set_sysfs_param_value_traced env m p v =
          ((false, "Error: Kernel rejected value '" ++ v ++ "' as invalid for " ++ p ++ "."),
           [(sysfsPath m p, v)])) ∧
      (e = ENOENT →
        set_sysfs_param_value_traced env m p v =
          ((false, "Error: Parameter file disappeared before write could occur."),
           [(sysfsPath m p, v)])) ∧
      (¬(e = EACCES ∨ e = EPERM) → e ≠ EINVAL → e ≠ ENOENT →
        set_sysfs_param_value_traced env m p v =
          ((false, "Error writing to sysfs parameter " ++ p ++ ": " ++ env.strerror e ++
              " (errno " ++ toString e ++ ")."),
           [(sysfsPath m p, v)]))) ∧
    (∀ msg, env.pathExists (sysfsPath m p) = true → env.writable (sysfsPath m p) = true →
      env.writeOutcome (sysfsPath m p) v = .otherError msg →
      set_sysfs_param_value_traced env m p v =
        ((false, "An unexpected error occurred while writing to " ++ p ++ ": " ++ msg),
         [(sysfsPath m p, v)])) ∧
    (set_sysfs_param_value_traced env m p v).2.length ≤ 1 := by
  refine ⟨?_, ?_, ?_, ?_, ?_, ?_⟩
  · intro h
    simp [set_sysfs_param_value_traced, h]
  · intro h1 h2
    simp [set_sysfs_param_value_traced, h1, h2]
  · intro h1 h2 h3
    simp [set_sysfs_param_value_traced, h1, h2, h3]
  · intro e h1 h2 h3
    refine ⟨?_, ?_, ?_, ?_⟩
    · intro he
      simp [set_sysfs_param_value_traced, h1, h2, h3, he]
    · intro he
      subst he
      simp [set_sysfs_param_value_traced, h1, h2, h3, EACCES, EPERM, EINVAL]
    · intro he
      subst he
      simp [set_sysfs_param_value_traced, h1, h2, h3, EACCES, EPERM, EINVAL, ENOENT]
    · intro he1 he2 he3
      simp [set_sysfs_param_value_traced, h1, h2, h3, he1, he2, he3]
  · intro msg h1 h2 h3
    simp [set_sysfs_param_value_traced, h1, h2, h3]
  · rcases hw : env.writeOutcome (sysfsPath m p) v with _ | e | msg <;>
      by_cases h1 : env.pathExists (sysfsPath m p) <;>
      by_cases h2 : env.writable (sysfsPath m p) <;>
      simp [set_sysfs_param_value_traced, hw, h1, h2] <;>
      split_ifs <;> simp

/-- Closed instantiation of C3: on a system where nothing exists, the
write is classified as not-found and no write is attempted. -/
theorem sysfs_write_contract_witness :
    set_sysfs_param_value_traced sysAbsent "usbcore" "autosuspend" "2" =
      ((false, "Error: Parameter file not found at '" ++
          sysfsPath "usbcore" "autosuspend" ++ "'."), []) :=
  (sysfs_write_contract sysAbsent "usbcore" "autosuspend" "2").1 rfl

/-! ## Claim C8 -/

/-- C8 counterexample: the read accessor strips *leading* whitespace too
(`str.strip()`), so for content `"  x\n"` it does not return the content
trimmed of trailing whitespace only, contrary to the claim. -/
theorem sysfs_read_trailing_trim_counterexample :
    get_sysfs_param_value sysPadded "usbcore" "autosuspend" ≠ pyRstrip "  x\n" ∧
    get_sysfs_param_value sysPadded "usbcore" "autosuspend" = "x" ∧
    pyRstrip "  x\n" = "  x" := by decide

/-- C8 (amended): `get_sysfs_param_value` is total (exceptions are
modelled as read outcomes, and every outcome maps to a returned string);
on success it returns the content trimmed of leading and trailing
whitespace, an `IOError` yields the fixed access-error sentinel and any
other fault the fixed unexpected-error sentinel, so a failure is never
propagated to the caller. -/
theorem sysfs_read_contract (env : Sys) (m p : String) :
    (∀ c, env.readOutcome (sysfsPath m p) = .ok c →
      get_sysfs_param_value env m p = pyStrip c) ∧
    (env.readOutcome (sysfsPath m p) = .ioError →
      get_sysfs_param_value env m p = "N/A (sysfs access error)") ∧
    (env.readOutcome (sysfsPath m p) = .otherError →
      get_sysfs_param_value env m p = "N/A (unexpected read error)") := by
  refine ⟨?_, ?_, ?_⟩ <;> intro h
  · intro hc
    simp [get_sysfs_param_value, hc]
  · simp [get_sysfs_param_value, h]
  · simp [get_sysfs_param_value, h]

/-- Closed instantiation of C8: a failing read returns the sentinel. -/
theorem sysfs_read_contract_witness :
    get_sysfs_param_value sysAbsent "usbcore" "autosuspend" = "N/A (sysfs access error)" :=
  (sysfs_read_contract sysAbsent "usbcore" "autosuspend").2.1 rfl

/-! ## Claim C5 -/

/-- C5: `_sanitize_filename` is idempotent, maps `"My Profile!!"` to
`"My_Profile"` and `""` to `""`; and whenever a display name sanitizes to
the empty string, `save_profile` returns an error and leaves the store
unchanged (no file is created). -/
theorem sanitize_filename_contract :
    (∀ x, _sanitize_filename (_sanitize_filename x) = _sanitize_filename x) ∧
    _sanitize_filename "My Profile!!" = "My_Profile" ∧
    _sanitize_filename "" = "" ∧
    (∀ (fs : ProfFS) (name desc : String)
      (params : List (String × List (String × String))) (bd : String),
      _sanitize_filename name = "" →
      save_profile fs name desc params bd =
        (fs, (false,
          "Error: Profile name is invalid or results in an empty filename after sanitization."))) := by
  refine ⟨sanitize_filename_idem, by decide, rfl, ?_⟩
  intro fs name desc params bd h
  simp [save_profile, h]

/-- Closed instantiation of C5: a name of forbidden characters only is
rejected at save time with the store untouched. -/
theorem sanitize_filename_contract_witness :
    save_profile fsEmpty "!!!" "d" [] "kernameters_profiles" =
      (fsEmpty, (false,
        "Error: Profile name is invalid or results in an empty filename after sanitization.")) :=
  sanitize_filename_contract.2.2.2 fsEmpty "!!!" "d" [] "kernameters_profiles" (by decide)

/-! ## Claim C6 -/

/-- C6: for any display name with non-empty sanitization, a successful
`save_profile` (directory creation and file write succeed) followed by
`load_profile` of the sanitized name (file read succeeds) returns a record
whose `parameters` equals the saved mapping and whose `profile_name`
equals the original display name. -/
theorem profile_round_trip (fs : ProfFS) (name desc : String)
    (params : List (String × List (String × String))) (bd : String)
    (h1 : _sanitize_filename name ≠ "")
    (h2 : fs.makedirsErr = none)
    (h3 : fs.writeErr (pyJoin bd (_sanitize_filename name ++ ".json")) = none)
    (h4 : fs.readErr (pyJoin bd (_sanitize_filename name ++ ".json")) = none) :
    (save_profile fs name desc params bd).2.1 = true ∧
    (load_profile (save_profile fs name desc params bd).1 (_sanitize_filename name) bd).1 =
      some ⟨name, _sanitize_filename name, desc, fs.now, params⟩ := by
  have hl := assocLookup_dictInsert fs.files (pyJoin bd (_sanitize_filename name ++ ".json"))
    (StoredFile.record ⟨name, _sanitize_filename name, desc, fs.now, params⟩)
  simp [save_profile, load_profile, if_neg h1, h2, h3, h4, hl]

/-- Closed instantiation of C6: the `P1` round trip of the spec. -/
theorem profile_round_trip_witness :
    (save_profile fsEmpty "P1" "desc" [("usb", [("debug", "1")])] "kernameters_profiles").2.1 = true ∧
    (load_profile (save_profile fsEmpty "P1" "desc" [("usb", [("debug", "1")])]
        "kernameters_profiles").1 "P1" "kernameters_profiles").1 =
      some ⟨"P1", "P1", "desc", "2024-01-01T00:00:00", [("usb", [("debug", "1")])]⟩ :=
  profile_round_trip fsEmpty "P1" "desc" [("usb", [("debug", "1")])] "kernameters_profiles"
    (by decide) rfl rfl rfl

/-! ## Claim C4 -/

theorem applyModuleParams_cons (env : Sys) (m : String) (pv : String × Leaf)
    (ps : List (String × Leaf)) (acc : (Nat × List FailureEntry) × List (String × String)) :
    applyModuleParams env m (pv :: ps) acc =
      applyModuleParams env m ps (applyParamStep env m acc pv) := rfl

theorem applyModuleParams_spec (env : Sys) (m : String) (ps : List (String × Leaf)) :
    ∀ acc,
    (applyModuleParams env m ps acc).1.1 =
      acc.1.1 + (ps.countP fun pv => (set_sysfs_param_value env m pv.1 (leafStr pv.2)).1) ∧
    (applyModuleParams env m ps acc).1.2 =
      acc.1.2 ++
        ((ps.filter fun pv => !(set_sysfs_param_value env m pv.1 (leafStr pv.2)).1).map
          fun pv => ⟨m, pv.1, leafStr pv.2, (set_sysfs_param_value env m pv.1 (leafStr pv.2)).2⟩) := by
  induction ps with
  | nil => intro acc; simp [applyModuleParams]
  | cons pv ps ih =>
    intro acc
    rcases hr : (set_sysfs_param_value_traced env m pv.1 (leafStr pv.2)).1.1 with _ | _
    · have hstep : applyParamStep env m acc pv =
          ((acc.1.1, acc.1.2 ++
              [⟨m, pv.1, leafStr pv.2,
                (set_sysfs_param_value_traced env m pv.1 (leafStr pv.2)).1.2⟩]),
           acc.2 ++ (set_sysfs_param_value_traced env m pv.1 (leafStr pv.2)).2) := by
        simp [applyParamStep, hr]
      constructor
      · rw [applyModuleParams_cons, hstep, (ih _).1, List.countP_cons]
        simp [set_sysfs_param_value, hr]
      · rw [applyModuleParams_cons, hstep, (ih _).2, List.filter_cons]
        simp [set_sysfs_param_value, hr]
    · have hstep : applyParamStep env m acc pv =
          ((acc.1.1 + 1, acc.1.2),
           acc.2 ++ (set_sysfs_param_value_traced env m pv.1 (leafStr pv.2)).2) := by
        simp [applyParamStep, hr]
      constructor
      · rw [applyModuleParams_cons, hstep, (ih _).1, List.countP_cons]
        simp [set_sysfs_param_value, hr]
        omega
      · rw [applyModuleParams_cons, hstep, (ih _).2, List.filter_cons]
        simp [set_sysfs_param_value, hr]

theorem applyFold_spec (env : Sys) (ms : List (String × ModEntry)) :
    ∀ acc,
    (ms.foldl (applyStep env) acc).1.1 =
      acc.1.1 + ((profileWriteTriples ms).countP fun t =>
        (set_sysfs_param_value env t.1 t.2.1 t.2.2).1) ∧
    (ms.foldl (applyStep env) acc).1.2 = acc.1.2 ++ expectedApplyFailures env ms := by
  induction ms with
  | nil => intro acc; simp [profileWriteTriples, expectedApplyFailures]
  | cons me ms ih =>
    intro acc
    rcases me with ⟨m, me⟩
    cases me with
    | nonDict =>
      have h := ih ((acc.1.1, acc.1.2 ++ [moduleFormatFailure m]), acc.2)
      constructor
      · simpa [applyStep, profileWriteTriples] using h.1
      · simp only [List.foldl_cons, applyStep] at h ⊢
        rw [h.2, expectedApplyFailures]
        simp
    | dict ps =>
      have hm := applyModuleParams_spec env m ps acc
      have h := ih (applyModuleParams env m ps acc)
      constructor
      · simp only [List.foldl_cons, applyStep] at h ⊢
        rw [h.1, hm.1, profileWriteTriples, List.countP_append, List.countP_map]
        simp only [Function.comp_def]
        omega
      · simp only [List.foldl_cons, applyStep] at h ⊢
        rw [h.2, hm.2, expectedApplyFailures]
        simp

/-- C4: `apply_profile_parameters` attempts the write for every
`(module, parameter, str(value))` triple of a well-formed mapping and
keeps going after failures: `success_count` counts exactly the successful
writes, `failures` holds one `{module, parameter, value, reason}` entry
per failed write plus one synthetic entry per module whose parameter set
is not a mapping (processing continuing), and `failure_count` is the
length of that list; on the spec's example (first write succeeds, second
module's path missing) the summary is `success_count` 1, `failure_count`
1, with the single failure naming `bogus.x` and a not-found reason. -/
theorem apply_profile_contract :
    (∀ (env : Sys) (ms : List (String × ModEntry)),
      (apply_profile_parameters env (.dict ms)).success_count =
        ((profileWriteTriples ms).countP fun t =>
          (set_sysfs_param_value env t.1 t.2.1 t.2.2).1) ∧
      (apply_profile_parameters env (.dict ms)).failures = expectedApplyFailures env ms ∧
      (apply_profile_parameters env (.dict ms)).failure_count =
        (expectedApplyFailures env ms).length) ∧
    apply_profile_parameters sysUsb
        (.dict [("usbcore", .dict [("autosuspend", .s "2")]), ("bogus", .dict [("x", .s "1")])]) =
      ⟨1, 1, [⟨"bogus", "x", "1",
        "Error: Parameter file not found at '/sys/module/bogus/parameters/x'."⟩]⟩ := by
  constructor
  · intro env ms
    have h := applyFold_spec env ms ((0, []), [])
    refine ⟨?_, ?_, ?_⟩
    · simpa [apply_profile_parameters, apply_profile_parameters_traced] using h.1
    · simpa [apply_profile_parameters, apply_profile_parameters_traced] using h.2
    · have h2 := h.2
      simp only [apply_profile_parameters, apply_profile_parameters_traced] at h2 ⊢
      rw [h2]
      simp
  · decide

/-! ## Claim C7 -/

/-- C7 counterexample: for a non-existent profile directory,
`list_profiles` returns the error shape (`None` in place of the list), not
an empty list with an informational message as the claim states. -/
theorem list_profiles_missing_dir_counterexample :
    (list_profiles fsNoDir "kernameters_profiles").1 = none ∧
    (none : Option (List String)) ≠ some [] := by decide

/-- C7 (amended): `list_profiles` enumerates only entries with the
`.json` extension that are files directly inside the profile directory,
returning their extension-stripped stems sorted ascending; a directory
with no matching files yields an empty list with an informational
message; a *non-existent* directory yields an error (`None`), as does an
unreadable one. -/
theorem list_profiles_contract (fs : ProfFS) (bd : String) :
    (fs.dirExists bd = false →
      list_profiles fs bd =
        (none, "Profile directory '" ++ bd ++ "' not found or is not a directory.")) ∧
    (∀ e, fs.dirExists bd = true → fs.listing bd = .error e →
      list_profiles fs bd =
        (none, "Error reading profile directory '" ++ bd ++ "': " ++ fs.strerror e)) ∧
    (∀ entries, fs.dirExists bd = true → fs.listing bd = .ok entries →
      (entries.filter fun f => ".json".data.isSuffixOf f.data && fs.isFile (pyJoin bd f)) = [] →
      list_profiles fs bd = (some [], "No profiles found in '" ++ bd ++ "'.")) ∧
    (∀ entries, fs.dirExists bd = true → fs.listing bd = .ok entries →
      (entries.filter fun f => ".json".data.isSuffixOf f.data && fs.isFile (pyJoin bd f)) ≠ [] →
      ∃ ns, list_profiles fs bd = (some ns, "Found " ++ toString ns.length ++ " profile(s).") ∧
        ns.Sorted pyStrLe ∧
        List.Perm ns
          ((entries.filter fun f =>
            ".json".data.isSuffixOf f.data && fs.isFile (pyJoin bd f)).map splitextStem)) := by
  refine ⟨?_, ?_, ?_, ?_⟩
  · intro h
    simp [list_profiles, h]
  · intro e h1 h2
    simp [list_profiles, h1, h2]
  · intro entries h1 h2 h3
    simp [list_profiles, h1, h2, h3]
  · intro entries h1 h2 h3
    refine ⟨List.insertionSort pyStrLe
      ((entries.filter fun f =>
        ".json".data.isSuffixOf f.data && fs.isFile (pyJoin bd f)).map splitextStem), ?_, ?_, ?_⟩
    · simp [list_profiles, h1, h2, h3]
    · exact List.sorted_insertionSort pyStrLe _
    · exact List.perm_insertionSort pyStrLe _

/-- Closed instantiation of C7: a directory holding `b.json`, `a.json`, a
subdirectory and a non-profile file lists exactly the two sorted stems. -/
theorem list_profiles_contract_witness :
    ∃ ns, list_profiles fsTwo "kernameters_profiles" =
        (some ns, "Found " ++ toString ns.length ++ " profile(s).") ∧
      ns.Sorted pyStrLe ∧
      List.Perm ns
        ((["b.json", "a.json", "sub", "c.txt"].filter fun f =>
          ".json".data.isSuffixOf f.data && fsTwo.isFile (pyJoin "kernameters_profiles" f)).map
            splitextStem) :=
  (list_profiles_contract fsTwo "kernameters_profiles").2.2.2
    ["b.json", "a.json", "sub", "c.txt"] rfl rfl (by decide)

/-! ## Claim C9 -/

/-- C9: `collect_all_module_data` yields the `error` sentinel as its sole
content exactly when module listing fails, and the `info` sentinel as its
sole content exactly when listing succeeds with zero modules; otherwise it
holds one entry per distinct listed module, in duplicate-free sorted
order covering exactly the listed names, each module mapping to `Absent`
when its metadata retrieval fails and otherwise to per-parameter states
pairing the descriptor with the live sysfs value. -/
theorem aggregator_contract (env : Sys) :
    ((env.lsmodOutput = none) ↔
      ∃ msg, collect_all_module_data env = [("error", .strVal msg)]) ∧
    ((∃ out, env.lsmodOutput = some out ∧ moduleList out = []) ↔
      ∃ msg, collect_all_module_data env = [("info", .strVal msg)]) ∧
    (∀ out, env.lsmodOutput = some out → moduleList out ≠ [] →
      ((collect_all_module_data env).map Prod.fst).Sorted pyStrLe ∧
      ((collect_all_module_data env).map Prod.fst).Nodup ∧
      (∀ m, m ∈ (collect_all_module_data env).map Prod.fst ↔ m ∈ moduleList out) ∧
      (∀ m e, (m, e) ∈ collect_all_module_data env →
        e = match get_modinfo_params env m with
          | none => .absent
          | some pmap => .params (pmap.map fun pi =>
              (pi.1, ⟨get_sysfs_param_value env m pi.1, pi.2⟩)))) := by
  refine ⟨⟨?_, ?_⟩, ⟨?_, ?_⟩, ?_⟩
  · intro h
    exact ⟨"Failed to list kernel modules (lsmod command failed).",
      by simp [collect_all_module_data, h]⟩
  · rintro ⟨msg, hmsg⟩
    cases hls : env.lsmodOutput with
    | none => rfl
    | some out =>
      exfalso
      by_cases hml : moduleList out = []
      · simp [collect_all_module_data, hls, hml] at hmsg
      · simp only [collect_all_module_data, hls, if_neg hml] at hmsg
        have hmem : ("error", EntryVal.strVal msg) ∈
            (sortedModules (moduleList out)).map fun module_name =>
              match get_modinfo_params env module_name with
              | none => (module_name, EntryVal.absent)
              | some pmap => (module_name, EntryVal.params (pmap.map fun pi =>
                  (pi.1, ⟨get_sysfs_param_value env module_name pi.1, pi.2⟩))) := by
          rw [hmsg]
          simp
        rcases List.mem_map.mp hmem with ⟨m', _, hfm⟩
        cases hget : get_modinfo_params env m' <;> simp [hget] at hfm
  · rintro ⟨out, hls, hml⟩
    exact ⟨"No kernel modules found.", by simp [collect_all_module_data, hls, hml]⟩
  · rintro ⟨msg, hmsg⟩
    cases hls : env.lsmodOutput with
    | none =>
      simp [collect_all_module_data, hls] at hmsg
    | some out =>
      refine ⟨out, rfl, ?_⟩
      by_cases hml : moduleList out = []
      · exact hml
      · exfalso
        simp only [collect_all_module_data, hls, if_neg hml] at hmsg
        have hmem : ("info", EntryVal.strVal msg) ∈
            (sortedModules (moduleList out)).map fun module_name =>
              match get_modinfo_params env module_name with
              | none => (module_name, EntryVal.absent)
              | some pmap => (module_name, EntryVal.params (pmap.map fun pi =>
                  (pi.1, ⟨get_sysfs_param_value env module_name pi.1, pi.2⟩))) := by
          rw [hmsg]
          simp
        rcases List.mem_map.mp hmem with ⟨m', _, hfm⟩
        cases hget : get_modinfo_params env m' <;> simp [hget] at hfm
  · intro out hls hml
    have hc : collect_all_module_data env =
        (sortedModules (moduleList out)).map fun module_name =>
          match get_modinfo_params env module_name with
          | none => (module_name, EntryVal.absent)
          | some pmap => (module_name, EntryVal.params (pmap.map fun pi =>
              (pi.1, ⟨get_sysfs_param_value env module_name pi.1, pi.2⟩))) := by
      simp [collect_all_module_data, hls, hml]
    have hfst : ∀ m : String,
        (match get_modinfo_params env m with
          | none => (m, EntryVal.absent)
          | some pmap => (m, EntryVal.params (pmap.map fun pi : String × ParamInfo =>
              (pi.1, ⟨get_sysfs_param_value env m pi.1, pi.2⟩)))).1 = m := by
      intro m
      cases get_modinfo_params env m <;> rfl
    have hkeys : (collect_all_module_data env).map Prod.fst =
        sortedModules (moduleList out) := by
      rw [hc, List.map_map]
      exact (List.map_congr_left fun m _ => hfst m).trans (List.map_id _)
    refine ⟨?_, ?_, ?_, ?_⟩
    · rw [hkeys]
      exact List.sorted_insertionSort pyStrLe _
    · rw [hkeys]
      exact (List.perm_insertionSort pyStrLe _).nodup_iff.mpr (List.nodup_dedup _)
    · intro m
      rw [hkeys]
      unfold sortedModules
      rw [List.mem_insertionSort, List.mem_dedup]
    · intro m e hme
      rw [hc] at hme
      rcases List.mem_map.mp hme with ⟨m', _, hfm⟩
      cases hget : get_modinfo_params env m' <;> simp only [hget] at hfm <;>
        rcases Prod.mk.injEq .. ▸ hfm with ⟨rfl, rfl⟩ <;> simp [hget]

/-- Closed instantiation of C9: when `lsmod` fails the aggregator returns
the error sentinel alone. -/
theorem aggregator_contract_witness :
    ∃ msg, collect_all_module_data sysAbsent = [("error", EntryVal.strVal msg)] :=
  (aggregator_contract sysAbsent).1.mp rfl

/-! ## Claim C1: suffix-matching infrastructure -/

theorem suffix_of_suffix_length_le {l₁ l₂ l₃ : List Char}
    (h1 : l₁ <:+ l₃) (h2 : l₂ <:+ l₃) (hl : l₁.length ≤ l₂.length) : l₁ <:+ l₂ := by
  rw [← List.reverse_prefix] at h1 h2 ⊢
  exact List.prefix_of_prefix_length_le h1 h2 (by simpa using hl)

theorem patArray_suffix_inj : ∀ b ∈ hintBases, ∀ b' ∈ hintBases,
    (patArray b).isSuffixOf (patArray b') = true → b = b' := by decide

theorem patSimple_suffix_inj : ∀ b ∈ hintBases, ∀ b' ∈ hintBases,
    (patSimple b).isSuffixOf (patSimple b') = true → b = b' := by decide

theorem patSimple_not_suffix_patArray : ∀ b ∈ hintBases, ∀ b' ∈ hintBases,
    (patSimple b).isSuffixOf (patArray b') = false := by decide

theorem hintBases_length : ∀ b ∈ hintBases, 3 ≤ b.length ∧ b.length ≤ 6 := by decide

theorem findSome?_ite_eq {α : Type} {l : List α} {cond : α → Bool} {b : α}
    (hb : b ∈ l) (hcb : cond b = true)
    (huniq : ∀ b' ∈ l, cond b' = true → b' = b) :
    (l.findSome? fun x => if cond x then some x else none) = some b := by
  induction l with
  | nil => cases hb
  | cons a t ih =>
    by_cases h : cond a = true
    · have hba : a = b := huniq a (List.mem_cons_self _ _) h
      subst hba
      simp [List.findSome?_cons, hcb]
    · have hb' : b ∈ t := by
        rcases List.mem_cons.mp hb with rfl | hmem
        · exact absurd hcb h
        · exact hmem
      simp only [List.findSome?_cons, if_neg h]
      exact ih hb' fun b' hm hc => huniq b' (List.mem_cons_of_mem _ hm) hc

theorem findSome?_isSome_of_mem {α β : Type} {l : List α} {f : α → Option β} {a : α}
    (ha : a ∈ l) (hf : (f a).isSome = true) : (l.findSome? f).isSome = true := by
  induction l with
  | nil => cases ha
  | cons x t ih =>
    rcases List.mem_cons.mp ha with rfl | hmem
    · cases hfa : f a with
      | none => rw [hfa] at hf; cases hf
      | some b => simp [List.findSome?_cons, hfa]
    · cases hfx : f x with
      | some b => simp [List.findSome?_cons, hfx]
      | none =>
        simp only [List.findSome?_cons, hfx]
        exact ih hmem

theorem findSome?_eq_none_of_all {α β : Type} {l : List α} {f : α → Option β}
    (h : ∀ a ∈ l, f a = none) : l.findSome? f = none := by
  induction l with
  | nil => rfl
  | cons x t ih =>
    simp only [List.findSome?_cons, h x (List.mem_cons_self _ _)]
    exact ih fun a ha => h a (List.mem_cons_of_mem _ ha)

theorem findEndArray_eq_some {df b : List Char} (hb : b ∈ hintBases)
    (h : patArray b <:+ lowerL df) : findEndArray df = some b := by
  apply @findSome?_ite_eq (List Char) hintBases
    (fun x => (patArray x).isSuffixOf (lowerL df)) b hb
    (List.isSuffixOf_iff_suffix.mpr h)
  intro b' hb' hc
  have h' : patArray b' <:+ lowerL df := List.isSuffixOf_iff_suffix.mp hc
  rcases Nat.le_total (patArray b').length (patArray b).length with hle | hle
  · exact patArray_suffix_inj b' hb' b hb
      (List.isSuffixOf_iff_suffix.mpr (suffix_of_suffix_length_le h' h hle))
  · exact (patArray_suffix_inj b hb b' hb'
      (List.isSuffixOf_iff_suffix.mpr (suffix_of_suffix_length_le h h' hle))).symm

theorem findEndSimple_eq_some {df b : List Char} (hb : b ∈ hintBases)
    (h : patSimple b <:+ lowerL df) : findEndSimple df = some b := by
  apply @findSome?_ite_eq (List Char) hintBases
    (fun x => (patSimple x).isSuffixOf (lowerL df)) b hb
    (List.isSuffixOf_iff_suffix.mpr h)
  intro b' hb' hc
  have h' : patSimple b' <:+ lowerL df := List.isSuffixOf_iff_suffix.mp hc
  rcases Nat.le_total (patSimple b').length (patSimple b).length with hle | hle
  · exact patSimple_suffix_inj b' hb' b hb
      (List.isSuffixOf_iff_suffix.mpr (suffix_of_suffix_length_le h' h hle))
  · exact (patSimple_suffix_inj b hb b' hb'
      (List.isSuffixOf_iff_suffix.mpr (suffix_of_suffix_length_le h h' hle))).symm

theorem findEndArray_eq_none {df : List Char}
    (h : ∀ b ∈ hintBases, ¬patArray b <:+ lowerL df) : findEndArray df = none := by
  apply findSome?_eq_none_of_all
  intro b hb
  have : (patArray b).isSuffixOf (lowerL df) = false := by
    rcases hs : (patArray b).isSuffixOf (lowerL df) with _ | _
    · rfl
    · exact absurd (List.isSuffixOf_iff_suffix.mp hs) (h b hb)
  simp [this]

theorem findEndSimple_eq_none {df : List Char}
    (h : ∀ b ∈ hintBases, ¬patSimple b <:+ lowerL df) : findEndSimple df = none := by
  apply findSome?_eq_none_of_all
  intro b hb
  have : (patSimple b).isSuffixOf (lowerL df) = false := by
    rcases hs : (patSimple b).isSuffixOf (lowerL df) with _ | _
    · rfl
    · exact absurd (List.isSuffixOf_iff_suffix.mp hs) (h b hb)
  simp [this]

theorem findEndArray_eq_none_of_simple {df b : List Char} (hb : b ∈ hintBases)
    (h : patSimple b <:+ lowerL df) : findEndArray df = none := by
  apply findEndArray_eq_none
  intro b' hb' h'
  have hlb := hintBases_length b hb
  have hlb' := hintBases_length b' hb'
  have h10 : ("(array of ".data).length = 10 := rfl
  have hlen : (patSimple b).length ≤ (patArray b').length := by
    simp only [patSimple, patArray, List.length_append, List.length_cons, h10]
    omega
  have hs : (patSimple b).isSuffixOf (patArray b') = true :=
    List.isSuffixOf_iff_suffix.mpr (suffix_of_suffix_length_le h h' hlen)
  rw [patSimple_not_suffix_patArray b hb b' hb'] at hs
  cases hs

theorem stripL_ne_nil_of_mem {l : List Char} {c : Char}
    (hc : c ∈ l) (hns : pyIsSpace c = false) : stripL l ≠ [] := by
  intro h
  unfold stripL at h
  rw [List.reverse_eq_nil_iff, List.dropWhile_eq_nil_iff] at h
  have hcd : c ∈ l.dropWhile pyIsSpace := by
    have hsplit : l.takeWhile pyIsSpace ++ l.dropWhile pyIsSpace = l :=
      List.takeWhile_append_dropWhile _ _
    rcases List.mem_append.mp (hsplit ▸ hc) with h1 | h2
    · have := List.mem_takeWhile_imp h1
      rw [hns] at this
      cases this
    · exact h2
  have := h c (List.mem_reverse.mpr hcd)
  rw [hns] at this
  cases this

theorem splitFirst_spec {pre post : List Char} (h : ':' ∉ pre) :
    splitFirst ':' (pre ++ ':' :: post) = (pre, some post) := by
  induction pre with
  | nil => simp [splitFirst]
  | cons c cs ih =>
    have hc : ¬(c = ':') := fun hh => h (hh ▸ List.mem_cons_self c cs)
    simp [splitFirst, hc, ih fun hm => h (List.mem_cons_of_mem _ hm)]

theorem pyStrip_ne_empty_of_colon {line : String} {pre post : List Char}
    (hline : line.data = pre ++ ':' :: post) : pyStrip line ≠ "" := by
  have h1 : stripL line.data ≠ [] := by
    apply stripL_ne_nil_of_mem
    · rw [hline]
      exact List.mem_append.mpr (Or.inr (List.mem_cons_self _ _))
    · rfl
  intro he
  apply h1
  have h2 : (pyStrip line).data = ("" : String).data := congrArg String.data he
  simpa [pyStrip] using h2

/-- C1 counterexample: on `"ptr:Pointer parameter (CHARP)"` the trailing
hint matches case-insensitively, but the recorded type is the matched text
`"CHARP"` — the `charp`-to-`string` normalization is a case-sensitive
`str.replace` on the matched group, so it does not fire and the claimed
normalized type `"string"` is not recorded. -/
theorem catalog_trailing_hint_counterexample :
    parseModinfoLine "ptr:Pointer parameter (CHARP)" =
      some ("ptr", ⟨"Pointer parameter", "CHARP", "ptr:Pointer parameter (CHARP)"⟩) ∧
    ("CHARP" : String) ≠ "string" := by decide

/-- C1 (amended): for a metadata line `name:description` (split at the
first colon, trimmed name non-empty) whose trimmed description ends,
case-insensitively, with `"(array of <base>)"` — tried first — or with
`"(<base>)"`, the parser records the trimmed name, strips exactly that
trailing parenthetical (plus surrounding whitespace) from the description,
and records as type the matched hint text verbatim except that a literal
lowercase `"charp"` in it is replaced by `"string"` (so lowercase `charp`
normalizes to `string`; other casings are recorded as matched); the spec's
two examples parse as stated. -/
theorem catalog_trailing_hint :
    (∀ (line : String) (pre post w b : List Char),
      line.data = pre ++ ':' :: post →
      ':' ∉ pre →
      pyStrip (String.mk pre) ≠ "" →
      b ∈ hintBases →
      lowerL (stripL post) = w ++ patArray b →
      parseModinfoLine line =
        some (pyStrip (String.mk pre),
          { description := pyStrip (String.mk ((stripL post).take w.length)),
            type := "array of " ++
              String.mk (replaceCharp (((stripL post).drop (w.length + 10)).take b.length)),
            raw_modinfo_line := pyStrip line })) ∧
    (∀ (line : String) (pre post w b : List Char),
      line.data = pre ++ ':' :: post →
      ':' ∉ pre →
      pyStrip (String.mk pre) ≠ "" →
      b ∈ hintBases →
      lowerL (stripL post) = w ++ patSimple b →
      parseModinfoLine line =
        some (pyStrip (String.mk pre),
          { description := pyStrip (String.mk ((stripL post).take w.length)),
            type := String.mk (replaceCharp (((stripL post).drop (w.length + 1)).take b.length)),
            raw_modinfo_line := pyStrip line })) ∧
    parseModinfoLine "debug:Enable debug messages (bool)" =
      some ("debug", ⟨"Enable debug messages", "bool", "debug:Enable debug messages (bool)"⟩) ∧
    parseModinfoLine "mask:Bitmask values (array of int)" =
      some ("mask", ⟨"Bitmask values", "array of int", "mask:Bitmask values (array of int)"⟩) := by
  refine ⟨?_, ?_, by decide, by decide⟩
  · intro line pre post w b hline hpre hname hb hw
    have hne := pyStrip_ne_empty_of_colon hline
    have hsuf : patArray b <:+ lowerL (stripL post) := ⟨w, hw.symm⟩
    have hsplit := @splitFirst_spec pre post hpre
    have hpa : (patArray b).length = b.length + 11 := by
      rw [patArray, List.length_append, List.length_append]
      have h10 : ("(array of ".data).length = 10 := rfl
      have h1 : ([')'] : List Char).length = 1 := rfl
      omega
    have hlen : (stripL post).length = w.length + (b.length + 11) := by
      have hh := congrArg List.length hw
      rw [lowerL, List.length_map, List.length_append, hpa] at hh
      omega
    have harr := findEndArray_eq_some hb hsuf
    have hne2 : ¬(String.mk (stripL (pre ++ ':' :: post)) = "") := by
      have h := hne
      simp only [pyStrip, hline] at h
      exact h
    have hname2 : ¬(String.mk (stripL pre) = "") := by
      have h := hname
      simp only [pyStrip] at h
      exact h
    simp only [parseModinfoLine, hline, hsplit, pyStrip]
    rw [if_neg hne2, if_neg hname2, harr]
    dsimp only
    rw [show (stripL post).length - (b.length + 11) = w.length from by omega,
      show (stripL post).length - (b.length + 1) = w.length + 10 from by omega]
  · intro line pre post w b hline hpre hname hb hw
    have hne := pyStrip_ne_empty_of_colon hline
    have hsuf : patSimple b <:+ lowerL (stripL post) := ⟨w, hw.symm⟩
    have hsplit := @splitFirst_spec pre post hpre
    have hpa : (patSimple b).length = b.length + 2 := by
      rw [patSimple, List.length_cons, List.length_append]
      have h1 : ([')'] : List Char).length = 1 := rfl
      omega
    have hlen : (stripL post).length = w.length + (b.length + 2) := by
      have hh := congrArg List.length hw
      rw [lowerL, List.length_map, List.length_append, hpa] at hh
      omega
    have harr := findEndArray_eq_none_of_simple hb hsuf
    have hsim := findEndSimple_eq_some hb hsuf
    have hne2 : ¬(String.mk (stripL (pre ++ ':' :: post)) = "") := by
      have h := hne
      simp only [pyStrip, hline] at h
      exact h
    have hname2 : ¬(String.mk (stripL pre) = "") := by
      have h := hname
      simp only [pyStrip] at h
      exact h
    simp only [parseModinfoLine, hline, hsplit, pyStrip]
    rw [if_neg hne2, if_neg hname2, harr, hsim]
    dsimp only
    rw [show (stripL post).length - (b.length + 2) = w.length from by omega,
      show (stripL post).length - (b.length + 1) = w.length + 1 from by omega]

/-- Closed instantiation of C1: an array hint at the end of a concrete
line is split, stripped and typed as the theorem states. -/
theorem catalog_trailing_hint_witness :
    parseModinfoLine "m:x (array of bool)" =
      some (pyStrip (String.mk "m".data),
        { description := pyStrip (String.mk ((stripL "x (array of bool)".data).take
            "x ".data.length)),
          type := "array of " ++ String.mk (replaceCharp
            (((stripL "x (array of bool)".data).drop ("x ".data.length + 10)).take
              "bool".data.length)),
          raw_modinfo_line := pyStrip "m:x (array of bool)" }) :=
  catalog_trailing_hint.1 "m:x (array of bool)" "m".data "x (array of bool)".data
    "x ".data "bool".data (by decide) (by decide) (by decide) (by decide) (by decide)

/-! ## Claim C2: fallback-scan infrastructure -/

theorem lowerL_append (a b : List Char) : lowerL (a ++ b) = lowerL a ++ lowerL b :=
  List.map_append ..

theorem lowerL_take (n : Nat) (l : List Char) : lowerL (l.take n) = (lowerL l).take n :=
  List.map_take ..

theorem lowerL_drop (n : Nat) (l : List Char) : lowerL (l.drop n) = (lowerL l).drop n :=
  List.map_drop ..

theorem lowerL_cons (c : Char) (l : List Char) :
    lowerL (c :: l) = Char.toLower c :: lowerL l := rfl

theorem lowerL_length (l : List Char) : (lowerL l).length = l.length :=
  List.length_map ..

theorem findSome?_sound {α β : Type} {l : List α} {f : α → Option β} {b : β}
    (h : l.findSome? f = some b) : ∃ a ∈ l, f a = some b := by
  induction l with
  | nil => cases h
  | cons x t ih =>
    rcases hf : f x with _ | y
    · rw [List.findSome?_cons, hf] at h
      obtain ⟨a, ha, hfa⟩ := ih h
      exact ⟨a, List.mem_cons_of_mem _ ha, hfa⟩
    · rw [List.findSome?_cons, hf] at h
      exact ⟨x, List.mem_cons_self _ _, hf.trans h⟩

theorem nonWordEnd_cons {c : Char} {u : List Char} (h : u ≠ []) :
    nonWordEnd (c :: u) = nonWordEnd u := by
  cases u with
  | nil => exact absurd rfl h
  | cons c2 u2 =>
    unfold nonWordEnd
    rw [List.getLast?_cons_cons]

theorem arrayAt_sound {l g : List Char} (h : arrayAt l = some g) :
    ∃ b v, b ∈ hintBases ∧ lowerL l = "array of ".data ++ (b ++ v) ∧ lowerL g = b := by
  unfold arrayAt at h
  by_cases hp : "array of ".data.isPrefixOf (lowerL l) = true
  · rw [if_pos hp] at h
    obtain ⟨b0, hb0, hfb0⟩ := findSome?_sound h
    by_cases hpre : b0.isPrefixOf (lowerL (l.drop 9)) = true
    · rw [if_pos hpre] at hfb0
      injection hfb0 with hg0
      obtain ⟨t, ht⟩ := List.isPrefixOf_iff_prefix.mp hpre
      obtain ⟨t2, ht2⟩ := List.isPrefixOf_iff_prefix.mp hp
      have h9 : ("array of ".data).length = 9 := rfl
      have ht2' : t2 = lowerL (l.drop 9) := by
        rw [lowerL_drop, ← ht2]
        have hd := List.drop_left "array of ".data t2
        rw [h9] at hd
        exact hd.symm
      refine ⟨b0, t, hb0, ?_, ?_⟩
      · rw [← ht2, ht2', ← ht]
      · rw [← hg0, lowerL_take, ← ht, List.take_left]
    · rw [if_neg hpre] at hfb0
      cases hfb0
  · rw [if_neg hp] at h
    cases h

theorem searchArrayKw_sound {l g : List Char} (h : searchArrayKw l = some g) :
    ∃ u b v, b ∈ hintBases ∧ lowerL l = u ++ ("array of ".data ++ (b ++ v)) ∧
      lowerL g = b := by
  induction l with
  | nil => cases h
  | cons c rest ih =>
    rw [searchArrayKw] at h
    rcases ha : arrayAt (c :: rest) with _ | g'
    · rw [ha] at h
      obtain ⟨u, b, v, hb, hdec, hg⟩ := ih h
      refine ⟨Char.toLower c :: u, b, v, hb, ?_, hg⟩
      rw [lowerL_cons, hdec]
      rfl
    · rw [ha] at h
      injection h with hgg
      subst hgg
      obtain ⟨b, v, hb, hdec, hg⟩ := arrayAt_sound ha
      exact ⟨[], b, v, hb, by simpa using hdec, hg⟩

theorem searchArrayKw_complete {l : List Char} (u b v : List Char) (hb : b ∈ hintBases)
    (hdec : lowerL l = u ++ ("array of ".data ++ (b ++ v))) :
    (searchArrayKw l).isSome = true := by
  induction l generalizing u with
  | nil =>
    exfalso
    have hnil : ([] : List Char) = u ++ ("array of ".data ++ (b ++ v)) := hdec
    rcases u with _ | ⟨x, xs⟩ <;> cases hnil
  | cons c rest ih =>
    rw [searchArrayKw]
    rcases ha : arrayAt (c :: rest) with _ | g
    case some => rfl
    case none =>
      cases u with
      | nil =>
        exfalso
        have hdec' : lowerL (c :: rest) = "array of ".data ++ (b ++ v) := by
          simpa using hdec
        have h9 : ("array of ".data).length = 9 := rfl
        have hp : "array of ".data.isPrefixOf (lowerL (c :: rest)) = true :=
          List.isPrefixOf_iff_prefix.mpr ⟨b ++ v, hdec'.symm⟩
        have hdrop : lowerL ((c :: rest).drop 9) = b ++ v := by
          rw [lowerL_drop, hdec']
          have hd := List.drop_left "array of ".data (b ++ v)
          rwa [h9] at hd
        have hbp : b.isPrefixOf (lowerL ((c :: rest).drop 9)) = true :=
          List.isPrefixOf_iff_prefix.mpr ⟨v, by rw [hdrop]⟩
        have hsome : (arrayAt (c :: rest)).isSome = true := by
          unfold arrayAt
          rw [if_pos hp]
          apply findSome?_isSome_of_mem hb
          rw [if_pos hbp]
          rfl
        rw [ha] at hsome
        cases hsome
      | cons cu us =>
        have hdec' : lowerL rest = us ++ ("array of ".data ++ (b ++ v)) := by
          have hh : Char.toLower c :: lowerL rest =
              cu :: (us ++ ("array of ".data ++ (b ++ v))) := by
            rw [← lowerL_cons, hdec]
            rfl
          injection hh with _ h2
        exact ih us hdec'

theorem searchSimpleKw_cons (prevW : Bool) (c : Char) (rest : List Char) :
    searchSimpleKw prevW (c :: rest) =
      match simpleAt prevW (c :: rest) with
      | some g => some g
      | none => searchSimpleKw (isWordChar c) rest := rfl

theorem simpleAt_sound {prevW : Bool} {l g : List Char} (h : simpleAt prevW l = some g) :
    prevW = false ∧ ∃ b, b ∈ hintBases ∧ g = l.take b.length ∧ lowerL g = b ∧
      nonWordStart (l.drop b.length) = true := by
  unfold simpleAt at h
  cases prevW with
  | true => simp at h
  | false =>
    rw [if_neg (by simp : ¬(false = true))] at h
    obtain ⟨b0, hb0, hfb0⟩ := findSome?_sound h
    by_cases hbp : b0.isPrefixOf (lowerL l) = true
    · rw [if_pos hbp] at hfb0
      obtain ⟨t, ht⟩ := List.isPrefixOf_iff_prefix.mp hbp
      rcases hd : l.drop b0.length with _ | ⟨c, cs⟩
      · rw [hd] at hfb0
        injection hfb0 with hg0
        refine ⟨rfl, b0, hb0, hg0.symm, ?_, by rw [hd]; rfl⟩
        rw [← hg0, lowerL_take, ← ht, List.take_left]
      · rw [hd] at hfb0
        dsimp only at hfb0
        by_cases hwc : isWordChar c = true
        · rw [if_pos hwc] at hfb0
          cases hfb0
        · rw [if_neg hwc] at hfb0
          injection hfb0 with hg0
          refine ⟨rfl, b0, hb0, hg0.symm, ?_, ?_⟩
          · rw [← hg0, lowerL_take, ← ht, List.take_left]
          · rw [hd]
            unfold nonWordStart
            simp [hwc]
    · rw [if_neg hbp] at hfb0
      cases hfb0

theorem searchSimpleKw_sound {prevW : Bool} {l g : List Char}
    (h : searchSimpleKw prevW l = some g) :
    ∃ u v, l = u ++ (g ++ v) ∧ lowerL g ∈ hintBases ∧
      ((u = [] ∧ prevW = false) ∨ (u ≠ [] ∧ nonWordEnd u = true)) ∧
      nonWordStart v = true := by
  induction l generalizing prevW with
  | nil => cases h
  | cons c rest ih =>
    rw [searchSimpleKw] at h
    rcases hs : simpleAt prevW (c :: rest) with _ | g'
    · rw [hs] at h
      obtain ⟨u', v, hdec, hbase, hbound, hv⟩ := ih h
      refine ⟨c :: u', v, by rw [hdec]; rfl, hbase, ?_, hv⟩
      right
      refine ⟨by simp, ?_⟩
      rcases hbound with ⟨rfl, hpw⟩ | ⟨hne, hnw⟩
      · simp only [nonWordEnd, List.getLast?_singleton]
        rw [hpw]
        rfl
      · rw [nonWordEnd_cons hne]
        exact hnw
    · rw [hs] at h
      injection h with hgg
      subst hgg
      obtain ⟨hpw, b, hb, hg0, hlg, hnws⟩ := simpleAt_sound hs
      refine ⟨[], (c :: rest).drop b.length, ?_, ?_, Or.inl ⟨rfl, hpw⟩, hnws⟩
      · rw [List.nil_append, hg0, List.take_append_drop]
      · rw [hlg]
        exact hb

theorem searchSimpleKw_complete (u m v : List Char) (prevW : Bool)
    (hm : lowerL m ∈ hintBases) (hv : nonWordStart v = true)
    (hbound : (u = [] ∧ prevW = false) ∨ (u ≠ [] ∧ nonWordEnd u = true)) :
    (searchSimpleKw prevW (u ++ (m ++ v))).isSome = true := by
  induction u generalizing prevW with
  | nil =>
    have hpw : prevW = false := by
      rcases hbound with ⟨_, h⟩ | ⟨hne, _⟩
      · exact h
      · exact absurd rfl hne
    subst hpw
    have hmne : m ≠ [] := by
      intro he
      subst he
      exact absurd hm (by decide)
    have hsome : (simpleAt false (m ++ v)).isSome = true := by
      unfold simpleAt
      rw [if_neg (by simp : ¬(false = true))]
      apply findSome?_isSome_of_mem hm
      have hp : (lowerL m).isPrefixOf (lowerL (m ++ v)) = true :=
        List.isPrefixOf_iff_prefix.mpr ⟨lowerL v, (lowerL_append m v).symm⟩
      rw [if_pos hp]
      have hd : (m ++ v).drop (lowerL m).length = v := by
        rw [lowerL_length]
        exact List.drop_left m v
      rw [hd]
      cases v with
      | nil => rfl
      | cons cv cvs =>
        have hwc : isWordChar cv = false := by
          simpa [nonWordStart] using hv
        dsimp only
        rw [if_neg (by simp [hwc] : ¬(isWordChar cv = true))]
        rfl
    rcases hmv : m ++ v with _ | ⟨c0, rest0⟩
    · exfalso
      exact hmne (List.append_eq_nil.mp hmv).1
    · rw [hmv] at hsome
      simp only [List.nil_append]
      rw [searchSimpleKw_cons]
      rcases hsa : simpleAt false (c0 :: rest0) with _ | g
      · rw [hsa] at hsome
        cases hsome
      · rfl
  | cons cu us ih =>
    have hshow : (cu :: us) ++ (m ++ v) = cu :: (us ++ (m ++ v)) := rfl
    rw [hshow, searchSimpleKw]
    rcases hsa : simpleAt prevW (cu :: (us ++ (m ++ v))) with _ | g
    · apply ih (isWordChar cu)
      rcases hbound with ⟨habs, _⟩ | ⟨_, hnw⟩
      · cases habs
      · cases us with
        | nil =>
          left
          refine ⟨rfl, ?_⟩
          have hh : nonWordEnd [cu] = true := hnw
          simp only [nonWordEnd, List.getLast?_singleton] at hh
          simpa using hh
        | cons c2 us2 =>
          right
          refine ⟨by simp, ?_⟩
          rw [← nonWordEnd_cons (by simp : (c2 :: us2 : List Char) ≠ [])]
          exact hnw
    · rfl

/-- C2 counterexample: `"ptr:Uses a CHARP buffer"` has no trailing hint and
its only standalone base-type keyword is `CHARP` (matched
case-insensitively), yet the recorded type is the matched text `"CHARP"`,
not the claimed normalized `"string"` (the normalization is a
case-sensitive `str.replace` on the matched group); under the claim's own
exception clause the predicted type would still be the default
`"string"`. -/
theorem catalog_fallback_counterexample :
    parseModinfoLine "ptr:Uses a CHARP buffer" =
      some ("ptr", ⟨"Uses a CHARP buffer", "CHARP", "ptr:Uses a CHARP buffer"⟩) ∧
    ("CHARP" : String) ≠ "string" := by decide

/-- C2 (amended): for a metadata line with no trailing parenthesized type
hint, the description is recorded unchanged, and the fallback type is: if
the phrase `array of <base>` occurs anywhere (case-insensitively), `"array
of "` followed by the matched base text with a literal lowercase `"charp"`
replaced by `"string"`; otherwise, if a standalone base-type keyword
occurs anywhere (word-delimited, case-insensitive), that keyword's matched
text with literal `"charp"` replaced by `"string"` (the source's
`"(string)"` guard never changes the result, because when it rejects a
`string` keyword the type stays the default `"string"` anyway); otherwise
the default `"string"`. -/
theorem catalog_fallback :
    ∀ (line : String) (pre post : List Char),
      line.data = pre ++ ':' :: post →
      ':' ∉ pre →
      pyStrip (String.mk pre) ≠ "" →
      (∀ b ∈ hintBases, ¬patArray b <:+ lowerL (stripL post) ∧
        ¬patSimple b <:+ lowerL (stripL post)) →
      ∃ t, parseModinfoLine line =
          some (pyStrip (String.mk pre),
            { description := String.mk (stripL post), type := t,
              raw_modinfo_line := pyStrip line }) ∧
        (arrayPhraseOccurs (stripL post) →
          ∃ g, lowerL g ∈ hintBases ∧
            (∃ u v, lowerL (stripL post) = u ++ ("array of ".data ++ (lowerL g ++ v))) ∧
            t = "array of " ++ String.mk (replaceCharp g)) ∧
        (¬arrayPhraseOccurs (stripL post) → standaloneKwOccurs (stripL post) →
          ∃ u g v, stripL post = u ++ (g ++ v) ∧ lowerL g ∈ hintBases ∧
            nonWordEnd u = true ∧ nonWordStart v = true ∧
            t = String.mk (replaceCharp g)) ∧
        (¬arrayPhraseOccurs (stripL post) → ¬standaloneKwOccurs (stripL post) →
          t = "string") := by
  intro line pre post hline hpre hname hnohint
  have hne := pyStrip_ne_empty_of_colon hline
  have hsplit := @splitFirst_spec pre post hpre
  have harr := findEndArray_eq_none fun b hb => (hnohint b hb).1
  have hsim := findEndSimple_eq_none fun b hb => (hnohint b hb).2
  have hne2 : ¬(String.mk (stripL (pre ++ ':' :: post)) = "") := by
    have h := hne
    simp only [pyStrip, hline] at h
    exact h
  have hname2 : ¬(String.mk (stripL pre) = "") := by
    have h := hname
    simp only [pyStrip] at h
    exact h
  have harrnone : arrayPhraseOccurs (stripL post) ∨ searchArrayKw (stripL post) = none := by
    rcases hg : searchArrayKw (stripL post) with _ | g
    · exact Or.inr rfl
    · obtain ⟨u, b, v, hb, hdec, _⟩ := searchArrayKw_sound hg
      exact Or.inl ⟨u, b, v, hb, hdec⟩
  refine ⟨fallbackType (String.mk (stripL post)), ?_, ?_, ?_, ?_⟩
  · simp only [parseModinfoLine, hline, hsplit, pyStrip]
    rw [if_neg hne2, if_neg hname2, harr, hsim]
  · intro hocc
    obtain ⟨u, b, v, hb, hdec⟩ := hocc
    have hcsome := searchArrayKw_complete u b v hb hdec
    rcases hg : searchArrayKw (stripL post) with _ | g
    · rw [hg] at hcsome
      cases hcsome
    · obtain ⟨u', b', v', hb', hdec', hlg⟩ := searchArrayKw_sound hg
      refine ⟨g, by rw [hlg]; exact hb', ⟨u', v', by rw [hlg]; exact hdec'⟩, ?_⟩
      simp [fallbackType, hg]
  · intro hnoarr hocc
    have hgnone : searchArrayKw (stripL post) = none := by
      rcases harrnone with h | h
      · exact absurd h hnoarr
      · exact h
    obtain ⟨u, g0, v, hdec, hbase, hu, hv⟩ := hocc
    have hbound : (u = [] ∧ false = false) ∨ (u ≠ [] ∧ nonWordEnd u = true) := by
      cases u with
      | nil => exact Or.inl ⟨rfl, rfl⟩
      | cons c us => exact Or.inr ⟨by simp, hu⟩
    have hcsome := searchSimpleKw_complete u g0 v false hbase hv hbound
    rw [← hdec] at hcsome
    rcases hg : searchSimpleKw false (stripL post) with _ | g
    · rw [hg] at hcsome
      cases hcsome
    · obtain ⟨u', v', hdec', hbase', hbound', hv'⟩ := searchSimpleKw_sound hg
      refine ⟨u', g, v', hdec', hbase', ?_, hv', ?_⟩
      · rcases hbound' with ⟨rfl, _⟩ | ⟨_, hnw⟩
        · rfl
        · exact hnw
      · by_cases hp : String.mk (replaceCharp g) = "string"
        · by_cases hc : containsPat "(string)".data (stripL post) = true
          · simp [fallbackType, hgnone, hg, hp, hc]
          · simp [fallbackType, hgnone, hg, hp, hc]
        · simp [fallbackType, hgnone, hg, hp]
  · intro hnoarr hnokw
    have hgnone : searchArrayKw (stripL post) = none := by
      rcases harrnone with h | h
      · exact absurd h hnoarr
      · exact h
    have hsimnone : searchSimpleKw false (stripL post) = none := by
      rcases hg : searchSimpleKw false (stripL post) with _ | g
      · rfl
      · exfalso
        obtain ⟨u', v', hdec', hbase', hbound', hv'⟩ := searchSimpleKw_sound hg
        apply hnokw
        refine ⟨u', g, v', hdec', hbase', ?_, hv'⟩
        rcases hbound' with ⟨rfl, _⟩ | ⟨_, hnw⟩
        · rfl
        · exact hnw
    simp [fallbackType, hgnone, hsimnone]

/-- Closed instantiation of C2: a line whose description contains an
`array of int` phrase but no trailing hint gets an array type from the
fallback. -/
theorem catalog_fallback_witness :
    ∃ t g, parseModinfoLine "p:vals array of int here" =
        some (pyStrip (String.mk "p".data),
          { description := String.mk (stripL "vals array of int here".data), type := t,
            raw_modinfo_line := pyStrip "p:vals array of int here" }) ∧
      lowerL g ∈ hintBases ∧ t = "array of " ++ String.mk (replaceCharp g) := by
  obtain ⟨t, hp, harrcl, _, _⟩ := catalog_fallback "p:vals array of int here" "p".data
    "vals array of int here".data (by decide) (by decide) (by decide) (by decide)
  obtain ⟨g, hg1, _, hg3⟩ :=
    harrcl ⟨"vals ".data, "int".data, " here".data, by decide, by decide⟩
  exact ⟨t, g, hp, hg1, hg3⟩

end Kernameters
